import Mathlib

/- Shallow embedding of bridge/vni.c (management of VXLAN VNI filter entries
   for the bridge command): the VNI range parsing and netlink attribute
   encoding of parse_vni_filter, the argument validation of vni_modify, and
   the decode and print logic of print_vni, print_vnifilter_entry_stats and
   print_vnifilter_rtm.  Netlink attributes are modelled as a tree of typed
   nodes carrying payload bytes; u32 and u64 payloads are stored in host
   byte order (little endian), addresses in network byte order. -/

/- Protocol constants from the kernel uapi headers included by bridge/vni.c. -/

def AF_INET : Nat := 2

def AF_BRIDGE : Nat := 7

def AF_INET6 : Nat := 10

def RTM_NEWTUNNEL : Nat := 120

def RTM_DELTUNNEL : Nat := 121

def RTM_GETTUNNEL : Nat := 122

def NLA_F_NESTED : Nat := 32768

/- NLA_TYPE_MASK clears NLA_F_NESTED and NLA_F_NET_BYTEORDER from a 16-bit
   attribute type. -/
def NLA_TYPE_MASK : Nat := 0x3fff

def VXLAN_VNIFILTER_ENTRY : Nat := 1

def VXLAN_VNIFILTER_ENTRY_START : Nat := 1

def VXLAN_VNIFILTER_ENTRY_END : Nat := 2

def VXLAN_VNIFILTER_ENTRY_GROUP : Nat := 3

def VXLAN_VNIFILTER_ENTRY_GROUP6 : Nat := 4

def VXLAN_VNIFILTER_ENTRY_STATS : Nat := 5

def VNIFILTER_ENTRY_STATS_RX_BYTES : Nat := 1

def VNIFILTER_ENTRY_STATS_RX_PKTS : Nat := 2

def VNIFILTER_ENTRY_STATS_RX_DROPS : Nat := 3

def VNIFILTER_ENTRY_STATS_RX_ERRORS : Nat := 4

def VNIFILTER_ENTRY_STATS_TX_BYTES : Nat := 5

def VNIFILTER_ENTRY_STATS_TX_PKTS : Nat := 6

def VNIFILTER_ENTRY_STATS_TX_DROPS : Nat := 7

def VNIFILTER_ENTRY_STATS_TX_ERRORS : Nat := 8

/- Byte-level helpers. -/

/-- Value of a little-endian byte list, as read back by rta_getattr_u32 and
rta_getattr_u64 on a little-endian host. -/
def leVal : List Nat → Nat
  | [] => 0
  | b :: rest => b % 256 + 256 * leVal rest

/-- Value of a big-endian (network order) byte list. -/
def beVal (d : List Nat) : Nat := d.foldl (fun acc b => acc * 256 + b % 256) 0

/-- Little-endian bytes of a 32-bit value, as stored by addattr32 on a
little-endian host. -/
def putU32 (v : Nat) : List Nat :=
  [v % 256, v / 2 ^ 8 % 256, v / 2 ^ 16 % 256, v / 2 ^ 24 % 256]

/-- ntohl: byte-swap a 32-bit value read from memory on a little-endian
host, yielding the big-endian interpretation of the stored bytes. -/
def ntohl (v : Nat) : Nat :=
  v % 256 * 2 ^ 24 + v / 2 ^ 8 % 256 * 2 ^ 16 + v / 2 ^ 16 % 256 * 2 ^ 8 + v / 2 ^ 24 % 256

/-- IN_MULTICAST from netinet/in.h on a host-order IPv4 address:
(v & 0xf0000000) == 0xe0000000. -/
def in_multicast (v : Nat) : Bool := v &&& 0xf0000000 == 0xe0000000

/-- IN6_IS_ADDR_UNSPECIFIED: every byte of the address is zero. -/
def in6_is_addr_unspecified (d : List Nat) : Bool := d.all (fun b => b % 256 == 0)

/-- IN6_IS_ADDR_MULTICAST: the first byte of the address is 0xff. -/
def in6_is_addr_multicast (d : List Nat) : Bool := d.headD 0 % 256 == 0xff

/- Netlink attributes. -/

/-- Netlink attribute as built by addattr_l / addattr32 / addattr_nest:
either a leaf carrying payload bytes or a nest of child attributes. -/
inductive Attr : Type where
  | bytes (atype : Nat) (data : List Nat) : Attr
  | nest (atype : Nat) (children : List Attr) : Attr

def Attr.typeOf : Attr → Nat
  | .bytes t _ => t
  | .nest t _ => t

def Attr.dataOf : Attr → List Nat
  | .bytes _ d => d
  | .nest _ _ => []

def Attr.childrenOf : Attr → List Attr
  | .bytes _ _ => []
  | .nest _ cs => cs

/-- Models parse_rtattr_flags (lib/libnetlink.c, outside src/) as called by
print_vni and print_vnifilter_entry_stats with flags = NLA_F_NESTED: the
table slot for type i holds the first attribute whose type, with the nest
flag cleared (rta_type & ~flags on a 16-bit type, i.e. & 0x7fff), is i. -/
def lookupN (cs : List Attr) (i : Nat) : Option Attr :=
  cs.find? (fun a => a.typeOf &&& 0x7fff == i)

/-- rta_getattr_u32: read back 4 payload bytes as a host-order value. -/
def rta_getattr_u32 (a : Attr) : Nat := leVal (a.dataOf.take 4)

/-- rta_getattr_u64: read back 8 payload bytes as a host-order value. -/
def rta_getattr_u64 (a : Attr) : Nat := leVal (a.dataOf.take 8)

/-- Whether the nest a has a child attribute of (flag-stripped) type i. -/
def hasChildType (a : Attr) (i : Nat) : Bool :=
  a.childrenOf.any (fun c => c.typeOf &&& 0x7fff == i)

/- Addresses. -/

inductive Fam : Type where
  | inet : Fam
  | inet6 : Fam
deriving DecidableEq, Repr

/-- An inet address as produced by get_addr (lib/utils.c, outside src/):
the address family together with the raw network-order address bytes
(4 for IPv4, 16 for IPv6). -/
structure Addr where
  fam : Fam
  abytes : List Nat
deriving DecidableEq, Repr

/-- Multicast classification recorded in the ADDRTYPE flags by get_addr:
224.0.0.0/4 for IPv4 and ff00::/8 for IPv6. -/
def Addr.isMulti (a : Addr) : Bool :=
  match a.fam with
  | .inet => in_multicast (beVal a.abytes)
  | .inet6 => in6_is_addr_multicast a.abytes

/-- is_addrtype_inet_multi: Addr only models inet-family addresses, so the
family part of the flag test always holds. -/
def is_addrtype_inet_multi (a : Addr) : Bool := a.isMulti

/-- is_addrtype_inet_not_multi applied to the local variable daddr of
vni_modify; none models the still-uninitialized variable, on which the
flag test is taken to fail. -/
def daddrNotMulti : Option Addr → Bool
  | some a => !a.isMulti
  | none => false

/- Range parsing (parse_vni_filter). -/

/-- Whitespace characters skipped by atoi (C isspace set). -/
def isSpaceC (c : Char) : Bool :=
  c == ' ' || c == '\t' || c == '\n' || c.toNat == 11 || c.toNat == 12 || c == '\r'

def atoiDigits : List Char → Nat → Nat
  | [], acc => acc
  | c :: cs, acc => if c.isDigit then atoiDigits cs (acc * 10 + (c.toNat - 48)) else acc

/-- atoi from the C library: skip leading whitespace, then an optional sign,
then leading decimal digits; trailing garbage is ignored and a string with
no leading digits yields 0. -/
def atoi (s : List Char) : Int :=
  let s1 := s.dropWhile isSpaceC
  match s1 with
  | '-' :: rest => -(atoiDigits rest 0 : Int)
  | '+' :: rest => (atoiDigits rest 0 : Int)
  | _ => (atoiDigits s1 0 : Int)

/-- Conversion of the int returned by atoi to the __u32 variables
vni_start and vni_end. -/
def toU32 (i : Int) : Nat := (i % (2 ^ 32 : Int)).toNat

/-- One token of the comma-separated list in parse_vni_filter: strchr
splits the token at its first dash into vni_start and vni_end; with no
dash, vni_end stays 0. -/
def parseToken (tok : List Char) : Nat × Nat :=
  match tok.dropWhile (fun c => c != '-') with
  | [] => (toU32 (atoi tok), 0)
  | _ :: rest => (toU32 (atoi (tok.takeWhile (fun c => c != '-'))), toU32 (atoi rest))

/-- strtok over ",": the nonempty maximal runs between commas, in order. -/
def strtokSplit (s : List Char) : List (List Char) :=
  (s.splitOn ',').filter (fun t => !t.isEmpty)

/-- The ordered (vni_start, vni_end) pairs produced by the token loop of
parse_vni_filter, one pair per strtok token. -/
def parseVniSpec (s : List Char) : List (Nat × Nat) := (strtokSplit s).map parseToken

def strL (s : String) : List Char := s.toList

/- Entry encoding (parse_vni_filter, emission side). -/

/-- group_type selection at the top of parse_vni_filter: a family-specific
attribute code for the endpoint bytes. -/
def groupType (g : Addr) : Nat :=
  match g.fam with
  | .inet => VXLAN_VNIFILTER_ENTRY_GROUP
  | .inet6 => VXLAN_VNIFILTER_ENTRY_GROUP6

/-- The nested VXLAN_VNIFILTER_ENTRY block emitted by one iteration of the
loop in parse_vni_filter: START always, END only when vni_end is nonzero,
then the raw endpoint address bytes when a group was supplied. -/
def encodeEntry (vni_start vni_end : Nat) (group : Option Addr) : Attr :=
  .nest (VXLAN_VNIFILTER_ENTRY ||| NLA_F_NESTED)
    ([Attr.bytes VXLAN_VNIFILTER_ENTRY_START (putU32 vni_start)] ++
     (if vni_end ≠ 0 then [Attr.bytes VXLAN_VNIFILTER_ENTRY_END (putU32 vni_end)] else []) ++
     (match group with
      | some g => [Attr.bytes (groupType g) g.abytes]
      | none => []))

/-- parse_vni_filter: parse the comma-separated specification and emit one
nested entry block per token. -/
def parse_vni_filter (argv : List Char) (group : Option Addr) : List Attr :=
  (parseVniSpec argv).map (fun p => encodeEntry p.1 p.2 group)

/-- VniRange from the specification data model; the code has no option
type, it represents a missing end as vni_end = 0, so the encoder receives
the end value with none mapped to 0. -/
structure VniRange where
  start : Nat
  endv : Option Nat

def endVal (r : VniRange) : Nat := r.endv.getD 0

def encodeRange (r : VniRange) (g : Option Addr) : Attr := encodeEntry r.start (endVal r) g

/- Request building (vni_modify). -/

/-- One already-tokenized command line argument of vni_modify: the keyword
together with its value (get_addr has already parsed address values). -/
inductive ModArg : Type where
  | dev (name : String) : ModArg
  | vni (spec : List Char) : ModArg
  | group (addr : Addr) : ModArg
  | remote (addr : Addr) : ModArg
  | other : ModArg

inductive ModError : Type where
  | DuplicateVni : ModError
  | DuplicateGroup : ModError
  | ConflictAddr : ModError
  | InvalidGroupAddr : ModError
  | MissingArgument : ModError
  | InvalidCombination : ModError
  | UnknownDevice : ModError
deriving DecidableEq, Repr

structure ModState where
  d : Option String
  vspec : Option (List Char)
  daddr : Option Addr
  group_present : Bool

def initModState : ModState := ⟨none, none, none, false⟩

/-- One iteration of the argument loop of vni_modify.  invarg aborts the
command (duplicate vni, duplicate group, invalid group address), as does
the explicit message when group follows a unicast daddr; all aborts are
modelled as errors. -/
def stepArg (st : ModState) (a : ModArg) : Except ModError ModState :=
  match a with
  | .dev n => .ok { st with d := some n }
  | .vni s =>
      if st.vspec.isSome then .error .DuplicateVni
      else .ok { st with vspec := some s }
  | .group ad =>
      if st.group_present then .error .DuplicateGroup
      else if daddrNotMulti st.daddr then .error .ConflictAddr
      else if !is_addrtype_inet_multi ad then .error .InvalidGroupAddr
      else .ok { st with daddr := some ad, group_present := true }
  | .remote ad =>
      if st.group_present then .error .DuplicateGroup
      else .ok { st with daddr := some ad, group_present := true }
  | .other => .ok st

def runArgs : ModState → List ModArg → Except ModError ModState
  | st, [] => .ok st
  | st, a :: rest =>
      match stepArg st a with
      | .error e => .error e
      | .ok st2 => runArgs st2 rest

/-- The request that vni_modify hands to rtnl_talk: message type, tunnel
message header fields and the encoded entry blocks. -/
structure Request where
  mtype : Nat
  family : Nat
  ifindex : Nat
  entries : List Attr

/-- The checks and request construction after the argument loop of
vni_modify, including the unreachable endpoint-without-vni check that
follows the missing-argument check. -/
def vniChecks (cmd : Nat) (st : ModState) (resolve : String → Nat) : Except ModError Request :=
  if st.d.isNone || st.vspec.isNone then .error .MissingArgument
  else if st.vspec.isNone && st.group_present then .error .InvalidCombination
  else
    let entries := parse_vni_filter (st.vspec.getD [])
      (if st.group_present then st.daddr else none)
    let idx := resolve (st.d.getD "")
    if idx == 0 then .error .UnknownDevice
    else .ok ⟨cmd, AF_BRIDGE, idx, entries⟩

/-- vni_modify as a function from the parsed command line to either an
error (nothing is sent) or the request passed to rtnl_talk. -/
def vni_modify (cmd : Nat) (args : List ModArg) (resolve : String → Nat) :
    Except ModError Request :=
  match runArgs initModState args with
  | .error e => .error e
  | .ok st => vniChecks cmd st resolve

def isErr {ε α : Type} : Except ε α → Bool
  | .error _ => true
  | .ok _ => false

def hasVniArg (args : List ModArg) : Bool :=
  args.any (fun a => match a with | .vni _ => true | _ => false)

def hasGroupArg (args : List ModArg) : Bool :=
  args.any (fun a => match a with | .group _ => true | _ => false)

def hasRemoteArg (args : List ModArg) : Bool :=
  args.any (fun a => match a with | .remote _ => true | _ => false)

def hasEndpointArg (args : List ModArg) : Bool :=
  args.any (fun a => match a with | .group _ => true | .remote _ => true | _ => false)

/- Reply decoding (print_vni, print_vnifilter_entry_stats,
   print_vnifilter_rtm). -/

inductive EpClass : Type where
  | group : EpClass
  | remote : EpClass
deriving DecidableEq, Repr

/-- What gets printed for an endpoint: its classification and family. -/
structure Ep where
  cls : EpClass
  fam : Nat
deriving DecidableEq, Repr

/-- Endpoint classification in print_vni: the IPv4 GROUP attribute is
consulted first; a nonzero address prints as group when multicast and as
remote otherwise; only when no GROUP attribute exists is GROUP6 consulted
the same way; an all-zero (unspecified) address prints nothing. -/
def decodeEndpoint (cs : List Attr) : Option Ep :=
  match lookupN cs VXLAN_VNIFILTER_ENTRY_GROUP with
  | some a =>
      let addr := rta_getattr_u32 a
      if addr ≠ 0 then
        if in_multicast (ntohl addr) then some ⟨.group, AF_INET⟩
        else some ⟨.remote, AF_INET⟩
      else none
  | none =>
      match lookupN cs VXLAN_VNIFILTER_ENTRY_GROUP6 with
      | some a =>
          if !in6_is_addr_unspecified a.dataOf then
            if in6_is_addr_multicast a.dataOf then some ⟨.group, AF_INET6⟩
            else some ⟨.remote, AF_INET6⟩
          else none
      | none => none

/-- One conditional print block of print_vnifilter_entry_stats: label and
value exactly when the attribute is present. -/
def statBlock (lbl : String) (o : Option Attr) : List (String × Nat) :=
  match o with
  | some a => [(lbl, rta_getattr_u64 a)]
  | none => []

/-- print_vnifilter_entry_stats: the labelled counters printed from one
STATS nest, in code order; a counter whose attribute is absent prints
nothing. -/
def print_vnifilter_entry_stats (cs : List Attr) : List (String × Nat) :=
  statBlock "rx_bytes" (lookupN cs VNIFILTER_ENTRY_STATS_RX_BYTES) ++
  statBlock "rx_pkts" (lookupN cs VNIFILTER_ENTRY_STATS_RX_PKTS) ++
  statBlock "rx_drops" (lookupN cs VNIFILTER_ENTRY_STATS_RX_DROPS) ++
  statBlock "rx_errors" (lookupN cs VNIFILTER_ENTRY_STATS_RX_ERRORS) ++
  statBlock "tx_bytes" (lookupN cs VNIFILTER_ENTRY_STATS_TX_BYTES) ++
  statBlock "tx_pkts" (lookupN cs VNIFILTER_ENTRY_STATS_TX_PKTS) ++
  statBlock "tx_drops" (lookupN cs VNIFILTER_ENTRY_STATS_TX_DROPS) ++
  statBlock "tx_errors" (lookupN cs VNIFILTER_ENTRY_STATS_TX_ERRORS)

/-- The (type, label) table of the eight counters, in code order. -/
def statCounters : List (Nat × String) :=
  [(VNIFILTER_ENTRY_STATS_RX_BYTES, "rx_bytes"),
   (VNIFILTER_ENTRY_STATS_RX_PKTS, "rx_pkts"),
   (VNIFILTER_ENTRY_STATS_RX_DROPS, "rx_drops"),
   (VNIFILTER_ENTRY_STATS_RX_ERRORS, "rx_errors"),
   (VNIFILTER_ENTRY_STATS_TX_BYTES, "tx_bytes"),
   (VNIFILTER_ENTRY_STATS_TX_PKTS, "tx_pkts"),
   (VNIFILTER_ENTRY_STATS_TX_DROPS, "tx_drops"),
   (VNIFILTER_ENTRY_STATS_TX_ERRORS, "tx_errors")]

/-- What print_vni prints for one decoded entry block. -/
structure DecodedVni where
  vstart : Nat
  vend : Nat
  endpoint : Option Ep
  stats : Option (List (String × Nat))
deriving DecidableEq, Repr

/-- print_vni: decode one nested VXLAN_VNIFILTER_ENTRY block into what
gets printed (vni_start and vni_end default to 0 when absent). -/
def print_vni (t : Attr) : DecodedVni :=
  { vstart :=
      match lookupN t.childrenOf VXLAN_VNIFILTER_ENTRY_START with
      | some a => rta_getattr_u32 a
      | none => 0
  , vend :=
      match lookupN t.childrenOf VXLAN_VNIFILTER_ENTRY_END with
      | some a => rta_getattr_u32 a
      | none => 0
  , endpoint := decodeEndpoint t.childrenOf
  , stats :=
      (lookupN t.childrenOf VXLAN_VNIFILTER_ENTRY_STATS).map
        (fun a => print_vnifilter_entry_stats a.childrenOf) }

/-- One inbound netlink message: nlmsg_type, then the tunnel_msg header
fields family and ifindex, then the top-level attribute list. -/
structure TunMsg where
  mtype : Nat
  family : Nat
  ifindex : Nat
  attrs : List Attr

/-- What one accepted message contributes to the printed dump. -/
structure IfaceResult where
  ifindex : Nat
  deleted : Bool
  entries : List DecodedVni
deriving DecidableEq, Repr

/-- print_vnifilter_rtm: the return code paired with what the message
contributes (none when the message is skipped).  Unknown message kinds and
family mismatches are skipped with return code 0; an active filter_index
that differs from the message ifindex also skips; an accepted message
decodes every top-level attribute whose masked type is
VXLAN_VNIFILTER_ENTRY and flags the result deleted for RTM_DELTUNNEL. -/
def print_vnifilter_rtm (filter_index : Nat) (m : TunMsg) : Int × Option IfaceResult :=
  if m.mtype ≠ RTM_NEWTUNNEL ∧ m.mtype ≠ RTM_DELTUNNEL ∧ m.mtype ≠ RTM_GETTUNNEL then
    (0, none)
  else if m.family ≠ AF_BRIDGE then (0, none)
  else if filter_index ≠ 0 ∧ filter_index ≠ m.ifindex then (0, none)
  else
    (0, some
      { ifindex := m.ifindex
      , deleted := m.mtype == RTM_DELTUNNEL
      , entries :=
          (m.attrs.filter
            (fun t => t.typeOf &&& NLA_TYPE_MASK == VXLAN_VNIFILTER_ENTRY)).map print_vni })

/-- The dump loop of vni_show via rtnl_dump_filter: every message is
processed by print_vnifilter_rtm in arrival order and the skipped ones
contribute nothing. -/
def vni_show_dump (filter_index : Nat) (msgs : List TunMsg) : List IfaceResult :=
  msgs.filterMap (fun m => (print_vnifilter_rtm filter_index m).2)


/- Helper lemmas. -/

/-- parse_vni_filter produces exactly one pair per token, in token order,
for a well-formed comma-joined token list (each token nonempty and free of
commas, mirroring what strtok can ever return). -/
theorem parseVniSpec_intercalate (toks : List (List Char)) (hne : toks ≠ [])
    (h : ∀ t ∈ toks, t ≠ [] ∧ ',' ∉ t) :
    parseVniSpec (List.intercalate [','] toks) = toks.map parseToken := by
  unfold parseVniSpec strtokSplit
  rw [List.splitOn_intercalate toks ',' (fun l hl => (h l hl).2) hne]
  rw [List.filter_eq_self.mpr ?_]
  intro t ht
  have h1 := (h t ht).1
  cases t with
  | nil => exact absurd rfl h1
  | cons c cs => rfl

/- Claim C1. -/

/-- C1 counterexample: the range with end equal to start (100-100) is not
encoded like the single VNI 100; the code emits an END child whenever the
end value is nonzero, even when it equals the start, so the block for
{start 100, end some 100} carries an END child while the block for
{start 100, end none} does not. -/
theorem c1_counterexample :
    hasChildType (encodeRange ⟨100, some 100⟩ none) VXLAN_VNIFILTER_ENTRY_END = true ∧
    hasChildType (encodeRange ⟨100, none⟩ none) VXLAN_VNIFILTER_ENTRY_END = false :=
  ⟨by decide, by decide⟩

/-- C1 (amended): every encoded entry block starts with a START child
carrying the range's start; an END child is present if and only if the
range's end value (none mapped to 0) is nonzero — not if and only if the
range spans more than one id — and a range whose end is some 0 (not one
whose end equals its start) is encoded identically to a single VNI with no
end. -/
theorem c1_encode_range (r : VniRange) (g : Option Addr) :
    (encodeRange r g).childrenOf.head? =
      some (Attr.bytes VXLAN_VNIFILTER_ENTRY_START (putU32 r.start)) ∧
    (hasChildType (encodeRange r g) VXLAN_VNIFILTER_ENTRY_END = true ↔ endVal r ≠ 0) ∧
    encodeRange ⟨r.start, some 0⟩ g = encodeRange ⟨r.start, none⟩ g := by
  refine ⟨rfl, ?_, rfl⟩
  by_cases he : endVal r = 0
  · rcases g with _ | ⟨f, b⟩
    · simp [encodeRange, encodeEntry, hasChildType, Attr.childrenOf, Attr.typeOf, he,
        VXLAN_VNIFILTER_ENTRY_START, VXLAN_VNIFILTER_ENTRY_END]
    · cases f <;>
        simp [encodeRange, encodeEntry, hasChildType, Attr.childrenOf, Attr.typeOf, he,
          groupType, VXLAN_VNIFILTER_ENTRY_START, VXLAN_VNIFILTER_ENTRY_END,
          VXLAN_VNIFILTER_ENTRY_GROUP, VXLAN_VNIFILTER_ENTRY_GROUP6] <;> decide
  · simp [encodeRange, encodeEntry, hasChildType, Attr.childrenOf, Attr.typeOf, he,
      VXLAN_VNIFILTER_ENTRY_END]
    exact Or.inr (Or.inl (by decide))

/- Claim C2. -/

/-- C2: the range parsing of parse_vni_filter produces one (start, end)
pair per comma token in token order: a plain decimal token yields end 0
(no end), a dash token yields the pair of its two sides, a non-numeric
token yields value 0, and a token with an empty part after the dash yields
end 0, which the encoder treats as no end (no END child emitted). -/
theorem c2_range_parse :
    parseVniSpec (strL "100") = [(100, 0)] ∧
    parseVniSpec (strL "100-105") = [(100, 105)] ∧
    parseVniSpec (strL "100,200-205,300") = [(100, 0), (200, 205), (300, 0)] ∧
    parseVniSpec (strL "abc") = [(0, 0)] ∧
    parseVniSpec (strL "200-") = [(200, 0)] ∧
    hasChildType (encodeEntry 200 0 none) VXLAN_VNIFILTER_ENTRY_END = false ∧
    (∀ toks : List (List Char), toks ≠ [] → (∀ t ∈ toks, t ≠ [] ∧ ',' ∉ t) →
      parseVniSpec (List.intercalate [','] toks) = toks.map parseToken) :=
  ⟨by decide, by decide, by decide, by decide, by decide, by decide,
   parseVniSpec_intercalate⟩

/-- C2 witness: the per-token theorem applied to the concrete token list
["5", "7-9"]. -/
theorem c2_range_parse_witness :
    parseVniSpec (List.intercalate [','] [strL "5", strL "7-9"]) = [(5, 0), (7, 9)] :=
  (c2_range_parse.2.2.2.2.2.2 [strL "5", strL "7-9"] (by decide) (by decide)).trans
    (by decide)

/- Claim C3. -/

/-- When no vni keyword occurs in the arguments, the loop never fills in a
VNI specification. -/
theorem runArgs_vspec_none (args : List ModArg) (hv : hasVniArg args = false) :
    ∀ st st2, runArgs st args = .ok st2 → st2.vspec = st.vspec := by
  induction args with
  | nil =>
      intro st st2 h
      simp only [runArgs] at h
      cases h
      rfl
  | cons a rest ih =>
      intro st st2 h
      simp only [hasVniArg, List.any_cons, Bool.or_eq_false_iff] at hv
      cases a with
      | dev n =>
          simp only [runArgs, stepArg] at h
          exact ih (by simpa [hasVniArg] using hv.2) { st with d := some n } st2 h
      | vni s => simp at hv
      | group ad =>
          simp only [runArgs, stepArg] at h
          by_cases h1 : st.group_present
          · simp [h1] at h
          · by_cases h2 : daddrNotMulti st.daddr
            · simp [h1, h2] at h
            · by_cases h3 : is_addrtype_inet_multi ad
              · simp [h1, h2, h3] at h
                exact ih (by simpa [hasVniArg] using hv.2)
                  { st with daddr := some ad, group_present := true } st2 h
              · simp [h1, h2, h3] at h
      | remote ad =>
          simp only [runArgs, stepArg] at h
          by_cases h1 : st.group_present
          · simp [h1] at h
          · simp [h1] at h
            exact ih (by simpa [hasVniArg] using hv.2)
              { st with daddr := some ad, group_present := true } st2 h
      | other =>
          simp only [runArgs, stepArg] at h
          exact ih (by simpa [hasVniArg] using hv.2) st st2 h

/-- The argument loop can only fail with the errors of its own checks,
never with the endpoint-without-vni error. -/
theorem runArgs_ne_invcomb (args : List ModArg) :
    ∀ st, runArgs st args ≠ .error .InvalidCombination := by
  induction args with
  | nil => intro st h; simp [runArgs] at h
  | cons a rest ih =>
      intro st h
      cases a with
      | dev n => exact ih _ (by simpa [runArgs, stepArg] using h)
      | vni s =>
          by_cases hv : st.vspec.isSome
          · simp [runArgs, stepArg, hv] at h
          · exact ih _ (by simpa [runArgs, stepArg, hv] using h)
      | group ad =>
          by_cases h1 : st.group_present
          · simp [runArgs, stepArg, h1] at h
          · by_cases h2 : daddrNotMulti st.daddr
            · simp [runArgs, stepArg, h1, h2] at h
            · by_cases h3 : is_addrtype_inet_multi ad
              · exact ih _ (by simpa [runArgs, stepArg, h1, h2, h3] using h)
              · simp [runArgs, stepArg, h1, h2, h3] at h
      | remote ad =>
          by_cases h1 : st.group_present
          · simp [runArgs, stepArg, h1] at h
          · exact ih _ (by simpa [runArgs, stepArg, h1] using h)
      | other => exact ih _ (by simpa [runArgs, stepArg] using h)

/-- C3 counterexample: supplying an endpoint (multicast group 239.1.1.1)
without any VNI specification fails with the missing-argument error, not
with the endpoint-without-VNI (InvalidCombination) error the claim names:
the missing-VNI check runs first and shadows the combination check. -/
theorem c3_counterexample :
    vni_modify RTM_NEWTUNNEL [ModArg.dev "vx0", ModArg.group ⟨Fam.inet, [239, 1, 1, 1]⟩]
      (fun _ => 1) = .error .MissingArgument ∧
    vni_modify RTM_NEWTUNNEL [ModArg.dev "vx0", ModArg.group ⟨Fam.inet, [239, 1, 1, 1]⟩]
      (fun _ => 1) ≠ .error .InvalidCombination := by
  refine ⟨rfl, ?_⟩
  intro h
  rw [show vni_modify RTM_NEWTUNNEL
      [ModArg.dev "vx0", ModArg.group ⟨Fam.inet, [239, 1, 1, 1]⟩] (fun _ => 1) =
      .error .MissingArgument from rfl] at h
  simp at h

/-- C3 (amended): an add or delete invocation that supplies an endpoint
address but no VNI specification fails before any request is built, but
with the MissingArgument error path (or an earlier argument-loop error),
never with the InvalidCombination error: that branch is unreachable
because the missing-VNI check precedes it. -/
theorem c3_endpoint_without_vni (cmd : Nat) (args : List ModArg) (resolve : String → Nat)
    (_hep : hasEndpointArg args = true) (hv : hasVniArg args = false) :
    isErr (vni_modify cmd args resolve) = true ∧
    vni_modify cmd args resolve ≠ .error .InvalidCombination := by
  constructor
  · unfold vni_modify
    split
    · rfl
    · rename_i st hx
      have hs : st.vspec = none := runArgs_vspec_none args hv initModState st hx
      simp [vniChecks, hs, isErr]
  · intro hcon
    unfold vni_modify at hcon
    split at hcon
    · rename_i e hx
      simp only [Except.error.injEq] at hcon
      subst hcon
      exact runArgs_ne_invcomb args initModState hx
    · rename_i st hx
      have hs : st.vspec = none := runArgs_vspec_none args hv initModState st hx
      simp [vniChecks, hs] at hcon

/-- C3 witness: the amended theorem applied to a concrete invocation with
a device, a multicast group and no VNI. -/
theorem c3_endpoint_without_vni_witness :
    isErr (vni_modify RTM_NEWTUNNEL
      [ModArg.dev "vx0", ModArg.group ⟨Fam.inet, [239, 1, 1, 1]⟩] (fun _ => 1)) = true ∧
    vni_modify RTM_NEWTUNNEL [ModArg.dev "vx0", ModArg.group ⟨Fam.inet, [239, 1, 1, 1]⟩]
      (fun _ => 1) ≠ .error .InvalidCombination :=
  c3_endpoint_without_vni RTM_NEWTUNNEL
    [ModArg.dev "vx0", ModArg.group ⟨Fam.inet, [239, 1, 1, 1]⟩] (fun _ => 1)
    (by decide) (by decide)

/- Claim C7. -/

theorem hasEndpointArg_of_group (args : List ModArg) (h : hasGroupArg args = true) :
    hasEndpointArg args = true := by
  simp only [hasGroupArg, hasEndpointArg, List.any_eq_true] at h ⊢
  obtain ⟨x, hx, hpx⟩ := h
  cases x <;> simp at hpx ⊢
  exact ⟨_, hx, by simp⟩

theorem hasEndpointArg_of_remote (args : List ModArg) (h : hasRemoteArg args = true) :
    hasEndpointArg args = true := by
  simp only [hasRemoteArg, hasEndpointArg, List.any_eq_true] at h ⊢
  obtain ⟨x, hx, hpx⟩ := h
  cases x <;> simp at hpx ⊢
  exact ⟨_, hx, by simp⟩

/-- Once an endpoint has been recorded (group_present), any further group
or remote keyword makes the argument loop abort. -/
theorem runArgs_err_after_group (args : List ModArg) :
    ∀ st, st.group_present = true → hasEndpointArg args = true →
      isErr (runArgs st args) = true := by
  induction args with
  | nil => intro st _ hep; simp [hasEndpointArg] at hep
  | cons a rest ih =>
      intro st hg hep
      cases a with
      | dev n =>
          simp only [hasEndpointArg, List.any_cons] at hep
          simp only [runArgs, stepArg]
          exact ih _ hg (by simpa [hasEndpointArg] using hep)
      | vni s =>
          simp only [hasEndpointArg, List.any_cons] at hep
          by_cases hv : st.vspec.isSome
          · simp [runArgs, stepArg, hv, isErr]
          · simp only [runArgs, stepArg, hv, Bool.false_eq_true, if_false]
            exact ih _ hg (by simpa [hasEndpointArg] using hep)
      | group ad => simp [runArgs, stepArg, hg, isErr]
      | remote ad => simp [runArgs, stepArg, hg, isErr]
      | other =>
          simp only [hasEndpointArg, List.any_cons] at hep
          simp only [runArgs, stepArg]
          exact ih _ hg (by simpa [hasEndpointArg] using hep)

/-- An argument list carrying both a group and a remote keyword makes the
argument loop abort, whatever state it starts from. -/
theorem runArgs_group_remote (args : List ModArg) :
    ∀ st, hasGroupArg args = true → hasRemoteArg args = true →
      isErr (runArgs st args) = true := by
  induction args with
  | nil => intro st hg _; simp [hasGroupArg] at hg
  | cons a rest ih =>
      intro st hg hr
      cases a with
      | dev n =>
          simp only [hasGroupArg, List.any_cons] at hg
          simp only [hasRemoteArg, List.any_cons] at hr
          simp only [runArgs, stepArg]
          exact ih _ (by simpa [hasGroupArg] using hg) (by simpa [hasRemoteArg] using hr)
      | vni s =>
          simp only [hasGroupArg, List.any_cons] at hg
          simp only [hasRemoteArg, List.any_cons] at hr
          by_cases hv : st.vspec.isSome
          · simp [runArgs, stepArg, hv, isErr]
          · simp only [runArgs, stepArg, hv, Bool.false_eq_true, if_false]
            exact ih _ (by simpa [hasGroupArg] using hg) (by simpa [hasRemoteArg] using hr)
      | other =>
          simp only [hasGroupArg, List.any_cons] at hg
          simp only [hasRemoteArg, List.any_cons] at hr
          simp only [runArgs, stepArg]
          exact ih _ (by simpa [hasGroupArg] using hg) (by simpa [hasRemoteArg] using hr)
      | group ad =>
          simp only [hasRemoteArg, List.any_cons] at hr
          by_cases h1 : st.group_present
          · simp [runArgs, stepArg, h1, isErr]
          · by_cases h2 : daddrNotMulti st.daddr
            · simp [runArgs, stepArg, h1, h2, isErr]
            · by_cases h3 : is_addrtype_inet_multi ad
              · simp only [runArgs, stepArg, h1, h2, h3, Bool.false_eq_true, if_false,
                  Bool.not_true, if_true]
                exact runArgs_err_after_group rest _ rfl
                  (hasEndpointArg_of_remote rest (by simpa [hasRemoteArg] using hr))
              · simp [runArgs, stepArg, h1, h2, h3, isErr]
      | remote ad =>
          simp only [hasGroupArg, List.any_cons] at hg
          by_cases h1 : st.group_present
          · simp [runArgs, stepArg, h1, isErr]
          · simp only [runArgs, stepArg, h1, Bool.false_eq_true, if_false]
            exact runArgs_err_after_group rest _ rfl
              (hasEndpointArg_of_group rest (by simpa [hasGroupArg] using hg))

/-- C7: an add or delete invocation that supplies both a group address and
a remote address, in either order and in any position, fails with an error
before any request is built: the second endpoint keyword always aborts the
argument loop. -/
theorem c7_group_remote_conflict (cmd : Nat) (args : List ModArg) (resolve : String → Nat)
    (hg : hasGroupArg args = true) (hr : hasRemoteArg args = true) :
    isErr (vni_modify cmd args resolve) = true := by
  have h := runArgs_group_remote args initModState hg hr
  unfold vni_modify
  split
  · rfl
  · rename_i st hx
    rw [hx] at h
    simp [isErr] at h

/-- C7 witness: a group followed by a remote on a concrete invocation. -/
theorem c7_group_remote_conflict_witness :
    isErr (vni_modify RTM_NEWTUNNEL
      [ModArg.group ⟨Fam.inet, [239, 1, 1, 1]⟩, ModArg.remote ⟨Fam.inet, [10, 0, 0, 1]⟩]
      (fun _ => 1)) = true :=
  c7_group_remote_conflict RTM_NEWTUNNEL
    [ModArg.group ⟨Fam.inet, [239, 1, 1, 1]⟩, ModArg.remote ⟨Fam.inet, [10, 0, 0, 1]⟩]
    (fun _ => 1) (by decide) (by decide)

/- Claim C4. -/

/-- C4: encoding the range {100, some 105} with the IPv4 multicast group
239.1.1.1 and decoding the resulting nested block yields end 105 and an
endpoint classified as group, not remote; in general the decoder
classifies a nonzero IPv4 endpoint as group exactly when it is multicast
and as remote otherwise, the same for IPv6, and treats an all-zero
address as absent. -/
theorem c4_encode_decode_group :
    (print_vni (encodeRange ⟨100, some 105⟩ (some ⟨Fam.inet, [239, 1, 1, 1]⟩))).vend = 105 ∧
    (print_vni (encodeRange ⟨100, some 105⟩ (some ⟨Fam.inet, [239, 1, 1, 1]⟩))).endpoint =
      some ⟨EpClass.group, AF_INET⟩ ∧
    (∀ cs a, lookupN cs VXLAN_VNIFILTER_ENTRY_GROUP = some a →
      decodeEndpoint cs =
        (if rta_getattr_u32 a ≠ 0 then
          (if in_multicast (ntohl (rta_getattr_u32 a)) then some ⟨EpClass.group, AF_INET⟩
           else some ⟨EpClass.remote, AF_INET⟩)
         else none)) ∧
    (∀ cs a, lookupN cs VXLAN_VNIFILTER_ENTRY_GROUP = none →
      lookupN cs VXLAN_VNIFILTER_ENTRY_GROUP6 = some a →
      decodeEndpoint cs =
        (if !in6_is_addr_unspecified a.dataOf then
          (if in6_is_addr_multicast a.dataOf then some ⟨EpClass.group, AF_INET6⟩
           else some ⟨EpClass.remote, AF_INET6⟩)
         else none)) := by
  refine ⟨by decide, by decide, ?_, ?_⟩
  · intro cs a h
    simp [decodeEndpoint, h]
  · intro cs a h4 h6
    simp [decodeEndpoint, h4, h6]

/-- C4 witness: the classification conjuncts applied to a concrete
unicast IPv4 attribute and a concrete all-zero IPv6 attribute. -/
theorem c4_encode_decode_group_witness :
    decodeEndpoint [Attr.bytes 3 [10, 0, 0, 1]] = some ⟨EpClass.remote, AF_INET⟩ ∧
    decodeEndpoint [Attr.bytes 4 (List.replicate 16 0)] = none :=
  ⟨(c4_encode_decode_group.2.2.1 [Attr.bytes 3 [10, 0, 0, 1]]
      (Attr.bytes 3 [10, 0, 0, 1]) rfl).trans (by decide),
   (c4_encode_decode_group.2.2.2 [Attr.bytes 4 (List.replicate 16 0)]
      (Attr.bytes 4 (List.replicate 16 0)) rfl rfl).trans (by decide)⟩

/- Claim C5. -/

/-- C5: print_vnifilter_rtm skips, with success return code 0 and no
contributed entries, any message whose kind is none of RTM_NEWTUNNEL,
RTM_DELTUNNEL, RTM_GETTUNNEL, and any message whose family is not
AF_BRIDGE. -/
theorem c5_skip_foreign (fi : Nat) (m : TunMsg)
    (h : (m.mtype ≠ RTM_NEWTUNNEL ∧ m.mtype ≠ RTM_DELTUNNEL ∧ m.mtype ≠ RTM_GETTUNNEL) ∨
      m.family ≠ AF_BRIDGE) :
    print_vnifilter_rtm fi m = (0, none) := by
  unfold print_vnifilter_rtm
  rcases h with hk | hf
  · rw [if_pos hk]
  · by_cases hk : m.mtype ≠ RTM_NEWTUNNEL ∧ m.mtype ≠ RTM_DELTUNNEL ∧ m.mtype ≠ RTM_GETTUNNEL
    · rw [if_pos hk]
    · rw [if_neg hk, if_pos hf]

/-- C5 witness: a message of unknown kind 99 and a message with family 2
instead of AF_BRIDGE, both skipped. -/
theorem c5_skip_foreign_witness :
    print_vnifilter_rtm 0 ⟨99, 7, 1, []⟩ = (0, none) ∧
    print_vnifilter_rtm 0 ⟨120, 2, 1, []⟩ = (0, none) :=
  ⟨c5_skip_foreign 0 ⟨99, 7, 1, []⟩ (Or.inl (by decide)),
   c5_skip_foreign 0 ⟨120, 2, 1, []⟩ (Or.inr (by decide))⟩

/- Claim C6. -/

/-- An accepted message contributes a block for its own interface index,
and only passes an active filter when the index matches. -/
theorem rtm_accept_ifindex (fi : Nat) (m : TunMsg) (r : IfaceResult)
    (h : (print_vnifilter_rtm fi m).2 = some r) :
    r.ifindex = m.ifindex ∧ (fi = 0 ∨ fi = m.ifindex) := by
  unfold print_vnifilter_rtm at h
  split at h
  · simp at h
  · split at h
    · simp at h
    · split at h
      · simp at h
      · rename_i h3
        simp only [Option.some.injEq] at h
        refine ⟨by rw [← h], ?_⟩
        by_cases hz : fi = 0
        · exact Or.inl hz
        · right
          by_contra hne
          exact h3 ⟨hz, hne⟩

/-- C6: with an active (nonzero) FilterIndex, every block in the decoded
dump result belongs to the filtered interface index, and any message with
a different interface index is skipped entirely. -/
theorem c6_filter_index (fi : Nat) (msgs : List TunMsg) (hfi : fi ≠ 0) :
    (∀ r ∈ vni_show_dump fi msgs, r.ifindex = fi) ∧
    (∀ m : TunMsg, m.ifindex ≠ fi → (print_vnifilter_rtm fi m).2 = none) := by
  constructor
  · intro r hr
    rw [vni_show_dump, List.mem_filterMap] at hr
    obtain ⟨m, _, hsome⟩ := hr
    obtain ⟨h1, h2⟩ := rtm_accept_ifindex fi m r hsome
    rcases h2 with h2 | h2
    · exact absurd h2 hfi
    · rw [h1, ← h2]
  · intro m hm
    unfold print_vnifilter_rtm
    split
    · rfl
    · split
      · rfl
      · rw [if_pos ⟨hfi, fun he => hm he.symm⟩]

/-- C6 witness: with FilterIndex 2, a well-formed message for interface 3
is skipped. -/
theorem c6_filter_index_witness :
    (print_vnifilter_rtm 2 ⟨120, 7, 3, []⟩).2 = none :=
  (c6_filter_index 2 [] (by decide)).2 ⟨120, 7, 3, []⟩ (by decide)

/- Claim C8. -/

/-- C8: an accepted message decodes to a block flagged deleted exactly
when its kind is RTM_DELTUNNEL; blocks from RTM_NEWTUNNEL or
RTM_GETTUNNEL messages are not flagged. -/
theorem c8_deleted_flag (fi : Nat) (m : TunMsg) (r : IfaceResult)
    (h : (print_vnifilter_rtm fi m).2 = some r) :
    (r.deleted = true ↔ m.mtype = RTM_DELTUNNEL) := by
  unfold print_vnifilter_rtm at h
  split at h
  · simp at h
  · split at h
    · simp at h
    · split at h
      · simp at h
      · simp only [Option.some.injEq] at h
        rw [← h]
        simp

/-- C8 witness: the theorem applied to a concrete RTM_DELTUNNEL message
(flagged) and a concrete RTM_GETTUNNEL message (not flagged). -/
theorem c8_deleted_flag_witness :
    (IfaceResult.deleted ⟨5, true, []⟩ = true ↔ (121 : Nat) = RTM_DELTUNNEL) ∧
    (IfaceResult.deleted ⟨5, false, []⟩ = true ↔ (122 : Nat) = RTM_DELTUNNEL) :=
  ⟨c8_deleted_flag 0 ⟨121, 7, 5, []⟩ ⟨5, true, []⟩ rfl,
   c8_deleted_flag 0 ⟨122, 7, 5, []⟩ ⟨5, false, []⟩ rfl⟩

/- Claim C9. -/

/-- Membership in one conditional print block of the stats printer. -/
theorem mem_statBlock (lbl l : String) (v : Nat) (o : Option Attr) :
    ((lbl, v) ∈ statBlock l o) ↔
      (lbl = l ∧ ∃ a, o = some a ∧ v = rta_getattr_u64 a) := by
  cases o with
  | none => simp [statBlock]
  | some a => simp [statBlock]

/-- C9: each of the eight 64-bit counters is printed independently of the
others: if its attribute is absent from the stats block no line with its
label is printed at all (in particular not a zero), and if it is present
its value is printed under its label. -/
theorem c9_stats_independent (cs : List Attr) (t : Nat) (lbl : String)
    (hmem : (t, lbl) ∈ statCounters) :
    (lookupN cs t = none → ∀ v : Nat, (lbl, v) ∉ print_vnifilter_entry_stats cs) ∧
    (∀ a : Attr, lookupN cs t = some a →
      (lbl, rta_getattr_u64 a) ∈ print_vnifilter_entry_stats cs) := by
  simp only [statCounters, List.mem_cons, List.not_mem_nil, or_false,
    Prod.mk.injEq] at hmem
  rcases hmem with hc | hc | hc | hc | hc | hc | hc | hc <;>
    obtain ⟨rfl, rfl⟩ := hc <;>
    refine ⟨fun h0 v hv => ?_, fun a ha => ?_⟩ <;>
    simp_all [print_vnifilter_entry_stats, mem_statBlock]

/-- C9 witness: a stats block carrying only tx_pkts = 7 prints no rx_bytes
line (not even zero) and prints the tx_pkts line. -/
theorem c9_stats_independent_witness :
    (("rx_bytes", 0) ∉ print_vnifilter_entry_stats
      [Attr.bytes 6 [7, 0, 0, 0, 0, 0, 0, 0]]) ∧
    ("tx_pkts", 7) ∈ print_vnifilter_entry_stats
      [Attr.bytes 6 [7, 0, 0, 0, 0, 0, 0, 0]] := by
  refine ⟨(c9_stats_independent [Attr.bytes 6 [7, 0, 0, 0, 0, 0, 0, 0]]
      VNIFILTER_ENTRY_STATS_RX_BYTES "rx_bytes" (by decide)).1 rfl 0, ?_⟩
  have h := (c9_stats_independent [Attr.bytes 6 [7, 0, 0, 0, 0, 0, 0, 0]]
      VNIFILTER_ENTRY_STATS_TX_PKTS "tx_pkts" (by decide)).2
    (Attr.bytes 6 [7, 0, 0, 0, 0, 0, 0, 0]) rfl
  simpa using h

/- Claim C10. -/

/-- find? is unchanged by a filter that keeps everything find? could
accept. -/
theorem find_filter_imp {α : Type} (p q : α → Bool) (h : ∀ a, p a = true → q a = true) :
    ∀ l : List α, (l.filter q).find? p = l.find? p := by
  intro l
  induction l with
  | nil => rfl
  | cons a rest ih =>
      cases hq : q a with
      | true =>
          cases hp : p a with
          | true => simp [List.filter_cons, List.find?_cons, hq, hp]
          | false => simp [List.filter_cons, List.find?_cons, hq, hp, ih]
      | false =>
          have hp : p a = false := by
            cases hpa : p a
            · rfl
            · exact absurd (h a hpa) (by simp [hq])
          simp [List.filter_cons, List.find?_cons, hq, hp, ih]

/-- Removing the attributes of one type does not change the table slot of
any other type. -/
theorem lookupN_filter_ne (cs : List Attr) (i j : Nat) (hij : i ≠ j) :
    lookupN (cs.filter (fun a => !(a.typeOf &&& 0x7fff == j))) i = lookupN cs i := by
  unfold lookupN
  apply find_filter_imp
  intro a hp
  have h1 : a.typeOf &&& 0x7fff = i := by simpa using hp
  simp [h1, hij]

/-- C10: when the entry block carries an IPv4 GROUP attribute, the decoded
entry is the same with or without any GROUP6 attributes: the IPv4
attribute takes precedence and the IPv6 one contributes nothing. -/
theorem c10_v4_precedence (cs : List Attr)
    (h : lookupN cs VXLAN_VNIFILTER_ENTRY_GROUP ≠ none) :
    print_vni (Attr.nest (VXLAN_VNIFILTER_ENTRY ||| NLA_F_NESTED)
        (cs.filter (fun a => !(a.typeOf &&& 0x7fff == VXLAN_VNIFILTER_ENTRY_GROUP6)))) =
      print_vni (Attr.nest (VXLAN_VNIFILTER_ENTRY ||| NLA_F_NESTED) cs) := by
  have hep : decodeEndpoint
      (cs.filter (fun a => !(a.typeOf &&& 0x7fff == VXLAN_VNIFILTER_ENTRY_GROUP6))) =
      decodeEndpoint cs := by
    unfold decodeEndpoint
    rw [lookupN_filter_ne cs VXLAN_VNIFILTER_ENTRY_GROUP VXLAN_VNIFILTER_ENTRY_GROUP6
      (by decide)]
    rcases hx : lookupN cs VXLAN_VNIFILTER_ENTRY_GROUP with _ | a
    · exact absurd hx h
    · rfl
  unfold print_vni
  simp only [Attr.childrenOf]
  rw [lookupN_filter_ne cs VXLAN_VNIFILTER_ENTRY_START VXLAN_VNIFILTER_ENTRY_GROUP6
      (by decide),
    lookupN_filter_ne cs VXLAN_VNIFILTER_ENTRY_END VXLAN_VNIFILTER_ENTRY_GROUP6
      (by decide),
    lookupN_filter_ne cs VXLAN_VNIFILTER_ENTRY_STATS VXLAN_VNIFILTER_ENTRY_GROUP6
      (by decide),
    hep]

/-- C10 witness: an entry block carrying both the unicast IPv4 endpoint
10.0.0.1 and a multicast IPv6 endpoint decodes the same once the GROUP6
attribute is filtered away, and its endpoint is the IPv4 classification
(remote), not the IPv6 one. -/
theorem c10_v4_precedence_witness :
    print_vni (Attr.nest (VXLAN_VNIFILTER_ENTRY ||| NLA_F_NESTED)
        ([Attr.bytes 1 (putU32 100), Attr.bytes 3 [10, 0, 0, 1],
          Attr.bytes 4 (255 :: 2 :: List.replicate 14 0)].filter
          (fun a => !(a.typeOf &&& 0x7fff == VXLAN_VNIFILTER_ENTRY_GROUP6)))) =
      print_vni (Attr.nest (VXLAN_VNIFILTER_ENTRY ||| NLA_F_NESTED)
        [Attr.bytes 1 (putU32 100), Attr.bytes 3 [10, 0, 0, 1],
         Attr.bytes 4 (255 :: 2 :: List.replicate 14 0)]) ∧
    (print_vni (Attr.nest (VXLAN_VNIFILTER_ENTRY ||| NLA_F_NESTED)
        [Attr.bytes 1 (putU32 100), Attr.bytes 3 [10, 0, 0, 1],
         Attr.bytes 4 (255 :: 2 :: List.replicate 14 0)])).endpoint =
      some ⟨EpClass.remote, AF_INET⟩ :=
  ⟨c10_v4_precedence
      [Attr.bytes 1 (putU32 100), Attr.bytes 3 [10, 0, 0, 1],
       Attr.bytes 4 (255 :: 2 :: List.replicate 14 0)]
      (Option.some_ne_none (Attr.bytes 3 [10, 0, 0, 1])),
   by decide⟩
